import Mathlib

/-
Verification development for the interactive core of polyscope
(src/src/polyscope.cpp): the structure registry, extent aggregation,
pick decoding, the reentrant context stack and the redraw scheduler.

The C++ global state is modelled as explicit values passed through the
operations.  `std::map<std::string, T>` (ordered by key, unique keys)
is modelled as a key-sorted association list `List (String × T)` with
the three operations the source uses: lookup (`mapFind`), insert or
overwrite (`mapInsert`, keeping key order as std::map does) and erase
(`mapErase`).  Side effects that the source performs by calling out of
the file (reporting an error, deleting a heap object, recomputing the
global extents, requesting a redraw) are recorded as an event list
returned next to the new state, in the order the calls happen.
-/

namespace PolyscopeCore

/-- Assoc-list lookup, the model of `std::map::find`. -/
def mapFind {α : Type} (k : String) : List (String × α) → Option α
  | [] => none
  | (k2, v) :: rest => if k = k2 then some v else mapFind k rest

/-- Assoc-list insert-or-overwrite, the model of `std::map::operator[]`
assignment; keeps the list sorted by key so that iteration order matches
`std::map` iteration order. -/
def mapInsert {α : Type} (k : String) (v : α) : List (String × α) → List (String × α)
  | [] => [(k, v)]
  | (k2, v2) :: rest =>
    if k = k2 then (k, v) :: rest
    else if k < k2 then (k, v) :: (k2, v2) :: rest
    else (k2, v2) :: mapInsert k v rest

/-- Assoc-list erase, the model of `std::map::erase`. -/
def mapErase {α : Type} (k : String) : List (String × α) → List (String × α)
  | [] => []
  | (k2, v) :: rest => if k = k2 then rest else (k2, v) :: mapErase k rest

/-- A registered structure as the registry sees it: the heap identity of
the `Structure*` pointer (used for pointer comparison and to record
deletion), and the immutable `type` and `name` fields. -/
structure PStruct where
  id : Nat
  type : String
  name : String
deriving DecidableEq

/-- The pick selection state (pick.h): either no selection, or a selected
structure (by heap identity) with a local element index and the
double-click flag. -/
inductive PickState where
  | noSelection : PickState
  | selected (structureId : Nat) (localIndex : Nat) (isDoubleClick : Bool) : PickState
deriving DecidableEq

/-- The mutable state the registry operations touch:
`state::structures` (type tag -> name -> structure) and the pick
selection. -/
structure RState where
  structures : List (String × List (String × PStruct))
  pick : PickState
deriving DecidableEq

/-- Externally visible effects of a registry operation, in call order:
a reported non-fatal error, a `delete` of a structure, a call to
`updateStructureExtents()`, a call to `requestRedraw()`. -/
inductive Ev where
  | errorEv (msg : String) : Ev
  | deleted (id : Nat) : Ev
  | extentsRecomputed : Ev
  | redrawRequested : Ev
deriving DecidableEq

/-- Modelled from the spec: `pick::resetPick` (pick.cpp, not under src)
resets the selection state to no-selection. -/
def resetPick : PickState := PickState.noSelection

/-- Modelled from the spec: `pick::clearPickIfStructureSelected`
(pick.cpp, not under src): the selection is a weak reference that must be
invalidated when the referenced structure is removed, so it is reset to
no-selection exactly when it references the given structure. -/
def clearPickIfStructureSelected (s : PStruct) : PickState → PickState
  | PickState.noSelection => PickState.noSelection
  | PickState.selected i li db =>
    if i = s.id then PickState.noSelection else PickState.selected i li db

/-- The error message built by `removeStructure(std::string name)` when two
structures of different types carry the requested name. -/
def ambiguityMsg (t1 t2 : String) : String :=
  "Cannot use automatic structure remove with empty name unless there is exactly one structure of that type registered. Found two structures of different types with that name: " ++ t1 ++ " and " ++ t2 ++ "."

/-- The error message built by `registerStructure` when the name is taken
and `replaceIfPresent` is false. -/
def dupNameMsg (name : String) : String :=
  "Attempted to register structure with name " ++ name ++ ", but a structure with that name already exists"

/-- Model of `removeStructure(std::string type, std::string name, bool
errorIfAbsent)`: not-found (optionally silent) if absent; otherwise the
pick selection referencing the structure is cleared, the entry erased,
the structure deleted and the extents recomputed. -/
def removeStructure (type name : String) (errorIfAbsent : Bool) (st : RState) :
    RState × List Ev :=
  match mapFind type st.structures with
  | none =>
    (st, if errorIfAbsent then [Ev.errorEv ("No structures of type " ++ type ++ " registered")] else [])
  | some sMap =>
    match mapFind name sMap with
    | none =>
      (st, if errorIfAbsent then [Ev.errorEv ("No structure of type " ++ type ++ " and name " ++ name ++ " registered")] else [])
    | some s =>
      ({ structures := mapInsert type (mapErase s.name sMap) st.structures,
         pick := clearPickIfStructureSelected s st.pick },
       [Ev.deleted s.id, Ev.extentsRecomputed])

/-- One inner step of the name scan of `removeStructure(std::string name)`:
walks one type's inner map carrying the match found so far; a second
match aborts the whole function with the ambiguity pair
(first match's `type` field, current outer key). -/
def scanInnerForName (name tKey : String) :
    List (String × PStruct) → Option PStruct → Except (String × String) (Option PStruct)
  | [], acc => Except.ok acc
  | (n, s) :: rest, acc =>
    if n = name then
      match acc with
      | none => scanInnerForName name tKey rest (some s)
      | some tgt => Except.error (tgt.type, tKey)
    else scanInnerForName name tKey rest acc

/-- The outer loop of the name scan of `removeStructure(std::string name)`
over all type maps. -/
def scanForName (name : String) :
    List (String × List (String × PStruct)) → Option PStruct →
      Except (String × String) (Option PStruct)
  | [], acc => Except.ok acc
  | (tKey, m) :: rest, acc =>
    match scanInnerForName name tKey m acc with
    | Except.error e => Except.error e
    | Except.ok acc2 => scanForName name rest acc2

/-- Model of the type-inferred `removeStructure(std::string name)`: scans
all types; errors on zero or two matches, otherwise removes the unique
match and requests a redraw. -/
def removeStructureByName (name : String) (st : RState) : RState × List Ev :=
  match scanForName name st.structures none with
  | Except.error e => (st, [Ev.errorEv (ambiguityMsg e.1 e.2)])
  | Except.ok none => (st, [Ev.errorEv ("No structure named: " ++ name ++ " to remove.")])
  | Except.ok (some tgt) =>
    let p := removeStructure tgt.type tgt.name true st
    (p.1, p.2 ++ [Ev.redrawRequested])

/-- Model of `registerStructure(Structure* s, bool replaceIfPresent)`:
creates the type map if missing; on a name collision either fails with an
error (`replaceIfPresent = false`) or first calls the type-inferred
remove (`replaceIfPresent = true`); then writes the new structure into
the inner map, recomputes extents and requests a redraw. -/
def registerStructure (s : PStruct) (replaceIfPresent : Bool) (st : RState) :
    Bool × RState × List Ev :=
  let structures0 :=
    if (mapFind s.type st.structures).isNone then mapInsert s.type [] st.structures
    else st.structures
  let st0 : RState := { st with structures := structures0 }
  let inUse := (mapFind s.name ((mapFind s.type structures0).getD [])).isSome
  if inUse then
    if replaceIfPresent then
      let p := removeStructureByName s.name st0
      let sMap1 := (mapFind s.type p.1.structures).getD []
      (true,
       { p.1 with structures := mapInsert s.type (mapInsert s.name s sMap1) p.1.structures },
       p.2 ++ [Ev.extentsRecomputed, Ev.redrawRequested])
    else
      (false, st0, [Ev.errorEv (dupNameMsg s.name)])
  else
    let sMap0 := (mapFind s.type structures0).getD []
    (true,
     { st0 with structures := mapInsert s.type (mapInsert s.name s sMap0) st0.structures },
     [Ev.extentsRecomputed, Ev.redrawRequested])

/-- Inner loop of `removeAllStructures`: removes a snapshot of names from
one type map, accumulating the events. -/
def removeTypeNames (tKey : String) (names : List String) (st : RState) (evs : List Ev) :
    RState × List Ev :=
  match names with
  | [] => (st, evs)
  | n :: rest =>
    let p := removeStructure tKey n true st
    removeTypeNames tKey rest p.1 (evs ++ p.2)

/-- Outer loop of `removeAllStructures` over the snapshot of type keys. -/
def removeAllLoop (types : List String) (st : RState) (evs : List Ev) : RState × List Ev :=
  match types with
  | [] => (st, evs)
  | t :: rest =>
    let names := ((mapFind t st.structures).getD []).map Prod.fst
    let p := removeTypeNames t names st evs
    removeAllLoop rest p.1 p.2

/-- Model of `removeAllStructures()`: per type, snapshot the name list and
remove each; then request a redraw and reset the pick. -/
def removeAllStructures (st : RState) : RState × List Ev :=
  let p := removeAllLoop (st.structures.map Prod.fst) st []
  ({ p.1 with pick := resetPick }, p.2 ++ [Ev.redrawRequested])

/-- Modelled from the spec: the structure type-name tag of point clouds
(`PointCloud::structureTypeName`, defined outside this file). -/
def pointCloudTypeName : String := "Point Cloud"

/-- Modelled from the spec: the structure type-name tag of surface meshes. -/
def surfaceMeshTypeName : String := "Surface Mesh"

/-- Modelled from the spec: the structure type-name tag of camera views. -/
def cameraViewTypeName : String := "Camera View"

/-- Modelled from the spec: the structure type-name tag of ray sets. -/
def raySetTypeName : String := "Ray Set"

/-- Model of `registerPointCloud`: constructs the structure (its heap
identity is `sid`) and calls `registerStructure(s)`; the call site passes
no second argument, so the header's default (`false`, modelled from the
spec) is used and the wrapper's own `replaceIfPresent` parameter is never
read.  On failure the freshly built structure is deleted. -/
def registerPointCloud (sid : Nat) (name : String) (replaceIfPresent : Bool) (st : RState) :
    RState × List Ev :=
  let s : PStruct := { id := sid, type := pointCloudTypeName, name := name }
  let p := registerStructure s false st
  (p.2.1, p.2.2 ++ if p.1 then [] else [Ev.deleted s.id])

/-- Model of `registerSurfaceMesh`; same shape as `registerPointCloud`. -/
def registerSurfaceMesh (sid : Nat) (name : String) (replaceIfPresent : Bool) (st : RState) :
    RState × List Ev :=
  let s : PStruct := { id := sid, type := surfaceMeshTypeName, name := name }
  let p := registerStructure s false st
  (p.2.1, p.2.2 ++ if p.1 then [] else [Ev.deleted s.id])

/-- Model of `registerCameraView`; same shape as `registerPointCloud`. -/
def registerCameraView (sid : Nat) (name : String) (replaceIfPresent : Bool) (st : RState) :
    RState × List Ev :=
  let s : PStruct := { id := sid, type := cameraViewTypeName, name := name }
  let p := registerStructure s false st
  (p.2.1, p.2.2 ++ if p.1 then [] else [Ev.deleted s.id])

/-- Model of `registerRaySet`; same shape as `registerPointCloud`. -/
def registerRaySet (sid : Nat) (name : String) (replaceIfPresent : Bool) (st : RState) :
    RState × List Ev :=
  let s : PStruct := { id := sid, type := raySetTypeName, name := name }
  let p := registerStructure s false st
  (p.2.1, p.2.2 ++ if p.1 then [] else [Ev.deleted s.id])

/-- Well-formedness of the registry, the invariants `std::map` and
registration guarantee: outer type keys are distinct, inner name keys are
distinct, and each entry's structure carries the outer key as its `type`
and its inner key as its `name`. -/
def RegWF (st : RState) : Prop :=
  (st.structures.map Prod.fst).Nodup ∧
  ∀ tm ∈ st.structures,
    (tm.2.map Prod.fst).Nodup ∧ ∀ p ∈ tm.2, p.2.type = tm.1 ∧ p.2.name = p.1

instance (st : RState) : Decidable (RegWF st) := by
  unfold RegWF; infer_instance

/-- The entries of one inner map whose key equals `name`. -/
def keyFilter (name : String) (m : List (String × PStruct)) : List (String × PStruct) :=
  m.filter (fun p => p.1 = name)

/-- All matches of `name` across the registry in scan order, each paired
with the outer type key it was found under. -/
def matchesOf (name : String) : List (String × List (String × PStruct)) → List (String × PStruct)
  | [] => []
  | (tKey, m) :: rest => (keyFilter name m).map (fun p => (tKey, p.2)) ++ matchesOf name rest

/-- An example registry holding two structures of different types with the
same name "foo", the structure of type "A" being the pick selection. -/
def exampleDupName : RState :=
  { structures := [("A", [("foo", ⟨1, "A", "foo"⟩)]), ("B", [("foo", ⟨2, "B", "foo"⟩)])],
    pick := PickState.selected 1 0 false }

/-- An example registry holding one structure, which is the pick
selection. -/
def exampleSingle : RState :=
  { structures := [("A", [("x", ⟨1, "A", "x"⟩)])],
    pick := PickState.selected 1 0 false }

/-
Context stack.  An entry of `contextStack` is modelled by its callback
alone (the `ImGuiContext*` is opaque and never inspected by the core
logic); the bottom/root entry carries no callback (`none`).  The front of
the list is the TOP of the stack (`std::vector::back`).  A callback is a
straight-line program over the two stack operations the claims exercise:
`Cmd.pop` models a call to `popContext()` and `Cmd.push cbs` a nested
call to `pushContext` with callback `cbs`.  The interpreter is
fuel-bounded because `pushContext` re-enters the main loop and a callback
that never pops would spin forever, exactly as in the source.
-/

/-- A command a context callback can perform against the stack. -/
inductive Cmd where
  | pop : Cmd
  | push (cbs : List Cmd) : Cmd

/-- The context stack: front of the list is the top. -/
abbrev Stack := List (Option (List Cmd))

/-- Model of `popContext()`: when the stack holds only the root entry an
error is reported (the Bool in the result), but, as in the source, the
`pop_back` is executed regardless (there is no early return). -/
def popContext (st : Stack) : Stack × Bool :=
  (st.tail, decide (st.length = 1))

mutual

/-- Runs a callback's commands in order against the stack.  Fuel
decreases on every recursive call; `none` means the fuel ran out. -/
def runCmds : Nat → List Cmd → Stack → Option Stack
  | 0, _, _ => none
  | _ + 1, [], st => some st
  | fuel + 1, Cmd.pop :: rest, st => runCmds fuel rest (popContext st).1
  | fuel + 1, Cmd.push cbs :: rest, st =>
    match pushContext fuel cbs st with
    | none => none
    | some p => runCmds fuel rest p.1

/-- Model of `pushContext(callback)`: pushes the new entry and re-enters
the main loop while the stack size stays at or above the size just after
the push; returns the final stack and the number of loop iterations. -/
def pushContext : Nat → List Cmd → Stack → Option (Stack × Nat)
  | 0, _, _ => none
  | fuel + 1, cbs, st => pushLoop fuel (st.length + 1) (some cbs :: st) 0

/-- The spin loop inside `pushContext`: `while (contextStack.size() >=
currentContextStackSize) mainLoopIteration();`, counting iterations. -/
def pushLoop : Nat → Nat → Stack → Nat → Option (Stack × Nat)
  | 0, _, _, _ => none
  | fuel + 1, target, st, iters =>
    if target ≤ st.length then
      match mainLoopIteration fuel st with
      | none => none
      | some st2 => pushLoop fuel target st2 (iters + 1)
    else some (st, iters)

/-- The stack-relevant projection of `mainLoopIteration()` / `draw()`:
with a single (root) entry the normal dashboard is built and the stack is
untouched; with a deeper stack only the top entry's callback runs. -/
def mainLoopIteration : Nat → Stack → Option Stack
  | 0, _ => none
  | fuel + 1, st =>
    match st with
    | [] => none
    | [e] => some [e]
    | none :: _ :: _ => none
    | some cmds :: b :: rest => runCmds fuel cmds (some cmds :: b :: rest)

end

/-
Pick query decoding (`pick::evaluatePickQuery` in this file, with the
parts living in pick.cpp abstracted).
-/

/-- The environment a pick query runs against.  Modelled from the spec:
`readInd` abstracts the offscreen pick render, the `readFloat4` pixel
read-back and `pick::vecToInd` (pick.cpp / gl, not under src), giving the
decoded integer index under a pixel; `pickTable` abstracts the global
index to (structure, local index) table that
`pick::setCurrentPickElement` resolves against. -/
structure PickEnv where
  bufferWidth : Int
  bufferHeight : Int
  readInd : Int → Int → Nat
  pickTable : Nat → Nat × Nat

/-- Model of `pick::evaluatePickQuery(int xPos, int yPos)`: out-of-buffer
coordinates are a no-op; index 0 resets the pick; a nonzero index selects
the resolved element, carrying the latched double-click flag. -/
def evaluatePickQuery (env : PickEnv) (lastClickWasDouble : Bool) (xPos yPos : Int)
    (cur : PickState) : PickState :=
  if xPos < 0 ∨ env.bufferWidth ≤ xPos ∨ yPos < 0 ∨ env.bufferHeight ≤ yPos then cur
  else
    let ind := env.readInd xPos (env.bufferHeight - yPos)
    if ind = 0 then resetPick
    else PickState.selected (env.pickTable ind).1 (env.pickTable ind).2 lastClickWasDouble

/-
Frame scheduler: the `redrawNextFrame` flag and the rasterize-on-demand
logic of `draw()`.
-/

/-- The scheduler state: the `redrawNextFrame` flag. -/
structure FrameState where
  redrawNextFrame : Bool
deriving DecidableEq

/-- Model of `requestRedraw()`. -/
def requestRedraw (fs : FrameState) : FrameState := { fs with redrawNextFrame := true }

/-- Model of `redrawRequested()`. -/
def redrawRequested (fs : FrameState) : Bool := fs.redrawNextFrame

/-- The scene-rasterization decision inside `draw()`: the scene is redrawn
exactly when the flag or the `options::alwaysRedraw` override is set, and
the flag is cleared right after drawing.  Returns whether
`drawStructures()` ran, and the new flag state. -/
def drawSceneStep (alwaysRedraw : Bool) (fs : FrameState) : Bool × FrameState :=
  if fs.redrawNextFrame || alwaysRedraw then (true, { fs with redrawNextFrame := false })
  else (false, fs)

/-
Extent aggregation (`updateStructureExtents`).  Float values are modelled
as real numbers; the possibly-infinite bounding-box accumulator as
`EReal`, whose top and bottom model the `std::numeric_limits` infinities
the fold starts from.
-/

/-- A structure's contribution to the extents: its `lengthScale()` and
`boundingBox()` results. -/
structure SExtent where
  lengthScale : ℝ
  bmin : EReal × EReal × EReal
  bmax : EReal × EReal × EReal

/-- The derived global extent state: `state::lengthScale`,
`state::boundingBox` and `state::center`. -/
structure Extents where
  lengthScale : ℝ
  bboxMin : ℝ × ℝ × ℝ
  bboxMax : ℝ × ℝ × ℝ
  center : ℝ × ℝ × ℝ

/-- Modelled from the spec: `componentwiseMin` (utilities, not under src)
takes the minimum in each component. -/
noncomputable def componentwiseMin (a b : EReal × EReal × EReal) : EReal × EReal × EReal :=
  (min a.1 b.1, min a.2.1 b.2.1, min a.2.2 b.2.2)

/-- Modelled from the spec: `componentwiseMax` (utilities, not under src)
takes the maximum in each component. -/
noncomputable def componentwiseMax (a b : EReal × EReal × EReal) : EReal × EReal × EReal :=
  (max a.1 b.1, max a.2.1 b.2.1, max a.2.2 b.2.2)

/-- Modelled from the spec: `isFinite` on a vector (utilities, not under
src) holds when every component is finite. -/
def isFiniteV (v : EReal × EReal × EReal) : Prop :=
  (v.1 ≠ ⊤ ∧ v.1 ≠ ⊥) ∧ (v.2.1 ≠ ⊤ ∧ v.2.1 ≠ ⊥) ∧ (v.2.2 ≠ ⊤ ∧ v.2.2 ≠ ⊥)

/-- Conversion of a finite extended-real vector back to reals. -/
noncomputable def toRealV (v : EReal × EReal × EReal) : ℝ × ℝ × ℝ :=
  (v.1.toReal, v.2.1.toReal, v.2.2.toReal)

/-- Model of `glm::length` on a 3-vector. -/
noncomputable def vlength (v : ℝ × ℝ × ℝ) : ℝ :=
  Real.sqrt (v.1 ^ 2 + v.2.1 ^ 2 + v.2.2 ^ 2)

/-- The `state::lengthScale` fold: maximum of all structures' length
scales, starting from 0. -/
noncomputable def foldLengthScale (ss : List SExtent) : ℝ :=
  ss.foldl (fun acc x => max acc x.lengthScale) 0

/-- The `minBbox` fold, starting from positive infinity in every
component. -/
noncomputable def foldMinBbox (ss : List SExtent) : EReal × EReal × EReal :=
  ss.foldl (fun acc x => componentwiseMin acc x.bmin) (⊤, ⊤, ⊤)

/-- The `maxBbox` fold, starting from negative infinity in every
component. -/
noncomputable def foldMaxBbox (ss : List SExtent) : EReal × EReal × EReal :=
  ss.foldl (fun acc x => componentwiseMax acc x.bmax) (⊥, ⊥, ⊥)

open Classical in
/-- Model of `updateStructureExtents()`: folds length scale and bounding
box over all structures, replaces a non-finite box by the unit box,
substitutes a zero length scale with the diagonal of the final box, and
centers on the box midpoint. -/
noncomputable def updateStructureExtents (ss : List SExtent) : Extents :=
  let minB := foldMinBbox ss
  let maxB := foldMaxBbox ss
  let fallback := ¬ isFiniteV minB ∨ ¬ isFiniteV maxB
  let bmin : ℝ × ℝ × ℝ := if fallback then (-1, -1, -1) else toRealV minB
  let bmax : ℝ × ℝ × ℝ := if fallback then (1, 1, 1) else toRealV maxB
  let ls0 := foldLengthScale ss
  let ls := if ls0 = 0 then vlength (bmax.1 - bmin.1, bmax.2.1 - bmin.2.1, bmax.2.2 - bmin.2.2)
            else ls0
  { lengthScale := ls,
    bboxMin := bmin,
    bboxMax := bmax,
    center := ((bmin.1 + bmax.1) / 2, (bmin.2.1 + bmax.2.1) / 2, (bmin.2.2 + bmax.2.2) / 2) }

/-
Association-map lemmas.
-/

theorem mem_of_mapFind_eq_some {α : Type} {l : List (String × α)} {k : String} {v : α}
    (h : mapFind k l = some v) : (k, v) ∈ l := by
  induction l with
  | nil => simp [mapFind] at h
  | cons p rest ih =>
    obtain ⟨k2, v2⟩ := p
    rw [mapFind] at h
    split at h
    · rename_i hk
      obtain rfl := Option.some.inj h
      exact hk ▸ List.mem_cons_self _ _
    · exact List.mem_cons_of_mem _ (ih h)

theorem mapFind_eq_some_of_mem {α : Type} {l : List (String × α)} {k : String} {v : α}
    (hnd : (l.map Prod.fst).Nodup) (hm : (k, v) ∈ l) : mapFind k l = some v := by
  induction l with
  | nil => simp at hm
  | cons p rest ih =>
    obtain ⟨k2, v2⟩ := p
    simp only [List.map_cons, List.nodup_cons] at hnd
    rcases List.mem_cons.mp hm with heq | hmem
    · obtain ⟨rfl, rfl⟩ := Prod.mk.injEq k v k2 v2 ▸ heq
      simp [mapFind]
    · have hkne : k ≠ k2 := by
        intro hk
        exact hnd.1 (hk ▸ List.mem_map_of_mem Prod.fst hmem)
      rw [mapFind, if_neg hkne]
      exact ih hnd.2 hmem

theorem mapFind_mapInsert_self {α : Type} (k : String) (v : α) (l : List (String × α)) :
    mapFind k (mapInsert k v l) = some v := by
  induction l with
  | nil => simp [mapInsert, mapFind]
  | cons p rest ih =>
    obtain ⟨k2, v2⟩ := p
    by_cases h1 : k = k2
    · simp [mapInsert, h1, mapFind]
    · by_cases h2 : k < k2
      · simp [mapInsert, h1, h2, mapFind]
      · simp only [mapInsert, if_neg h1, if_neg h2]
        rw [mapFind, if_neg h1]
        exact ih

theorem mapInsert_mapInsert_self {α : Type} (k : String) (v w : α) (l : List (String × α)) :
    mapInsert k v (mapInsert k w l) = mapInsert k v l := by
  induction l with
  | nil => simp [mapInsert]
  | cons p rest ih =>
    obtain ⟨k2, v2⟩ := p
    by_cases h1 : k = k2
    · simp [mapInsert, h1]
    · by_cases h2 : k < k2
      · simp [mapInsert, h1, h2]
      · simp [mapInsert, h1, h2, ih]

/-
The name scan of the type-inferred remove, characterized through
`matchesOf`.
-/

theorem keyFilter_cons (name k : String) (s : PStruct) (rest : List (String × PStruct)) :
    keyFilter name ((k, s) :: rest) =
      if k = name then (k, s) :: keyFilter name rest else keyFilter name rest := by
  simp [keyFilter, List.filter_cons]

theorem keyFilter_eq_nil {name : String} {m : List (String × PStruct)}
    (h : ∀ p ∈ m, p.1 ≠ name) : keyFilter name m = [] := by
  induction m with
  | nil => rfl
  | cons p rest ih =>
    obtain ⟨k, v⟩ := p
    rw [keyFilter_cons, if_neg (h (k, v) (List.mem_cons_self _ _))]
    exact ih fun q hq => h q (List.mem_cons_of_mem _ hq)

theorem nodup_keyFilter (name : String) {m : List (String × PStruct)}
    (hnd : (m.map Prod.fst).Nodup) :
    keyFilter name m = [] ∨ ∃ s, keyFilter name m = [(name, s)] := by
  induction m with
  | nil => exact Or.inl rfl
  | cons p rest ih =>
    obtain ⟨k, v⟩ := p
    simp only [List.map_cons, List.nodup_cons] at hnd
    rw [keyFilter_cons]
    by_cases hk : k = name
    · right
      refine ⟨v, ?_⟩
      rw [if_pos hk, hk]
      have hnil : keyFilter name rest = [] := by
        apply keyFilter_eq_nil
        intro q hq hqn
        exact hnd.1 (hk ▸ hqn ▸ List.mem_map_of_mem Prod.fst hq)
      rw [hnil]
    · rw [if_neg hk]
      exact ih hnd.2

theorem scanInner_no_match {name tKey : String} {m : List (String × PStruct)}
    (h : keyFilter name m = []) (acc : Option PStruct) :
    scanInnerForName name tKey m acc = Except.ok acc := by
  induction m generalizing acc with
  | nil => rfl
  | cons p rest ih =>
    obtain ⟨n, s⟩ := p
    rw [keyFilter_cons] at h
    by_cases hn : n = name
    · rw [if_pos hn] at h
      exact absurd h (List.cons_ne_nil _ _)
    · rw [if_neg hn] at h
      cases acc with
      | none => rw [scanInnerForName, if_neg hn]; exact ih h none
      | some tgt => rw [scanInnerForName, if_neg hn]; exact ih h (some tgt)

theorem scanInner_second_match {name tKey : String} {m : List (String × PStruct)}
    (tgt : PStruct) (h : keyFilter name m ≠ []) :
    scanInnerForName name tKey m (some tgt) = Except.error (tgt.type, tKey) := by
  induction m with
  | nil => exact absurd rfl h
  | cons p rest ih =>
    obtain ⟨n, s⟩ := p
    rw [scanInnerForName]
    by_cases hn : n = name
    · rw [if_pos hn]
    · rw [if_neg hn]
      apply ih
      rw [keyFilter_cons, if_neg hn] at h
      exact h

theorem scanInner_unique {name tKey : String} (n1 : String) {m : List (String × PStruct)}
    {s : PStruct} (h : keyFilter name m = [(n1, s)]) :
    scanInnerForName name tKey m none = Except.ok (some s) := by
  induction m with
  | nil => simp [keyFilter] at h
  | cons p rest ih =>
    obtain ⟨n, v⟩ := p
    rw [keyFilter_cons] at h
    rw [scanInnerForName]
    by_cases hn : n = name
    · rw [if_pos hn] at h
      obtain ⟨hhead, htail⟩ := List.cons.inj h
      obtain ⟨-, rfl⟩ := Prod.mk.injEq n v n1 s ▸ hhead
      rw [if_pos hn]
      exact scanInner_no_match htail (some v)
    · rw [if_neg hn] at h
      rw [if_neg hn]
      exact ih h

theorem scanFor_no_match {name : String} {structs : List (String × List (String × PStruct))}
    (h : matchesOf name structs = []) (acc : Option PStruct) :
    scanForName name structs acc = Except.ok acc := by
  induction structs generalizing acc with
  | nil => rfl
  | cons tm rest ih =>
    obtain ⟨tKey, m⟩ := tm
    rw [matchesOf] at h
    obtain ⟨ha, hb⟩ := List.append_eq_nil.mp h
    have h1 : keyFilter name m = [] := List.map_eq_nil.mp ha
    rw [scanForName, scanInner_no_match h1]
    exact ih hb acc

theorem scanFor_second {name : String} {structs : List (String × List (String × PStruct))}
    (tgt : PStruct) {t2 : String} {s2 : PStruct} {restM : List (String × PStruct)}
    (h : matchesOf name structs = (t2, s2) :: restM) :
    scanForName name structs (some tgt) = Except.error (tgt.type, t2) := by
  induction structs with
  | nil => simp [matchesOf] at h
  | cons tm rest ih =>
    obtain ⟨tKey, m⟩ := tm
    rw [matchesOf] at h
    cases hk : keyFilter name m with
    | nil =>
      rw [hk] at h
      simp only [List.map_nil, List.nil_append] at h
      rw [scanForName, scanInner_no_match hk]
      exact ih h
    | cons x xs =>
      rw [hk] at h
      simp only [List.map_cons, List.cons_append] at h
      have ht : tKey = t2 := by
        have := (List.cons.inj h).1
        exact (Prod.mk.injEq tKey x.2 t2 s2 ▸ this).1
      rw [scanForName, scanInner_second_match tgt (by rw [hk]; exact List.cons_ne_nil _ _), ht]

theorem scanFor_unique {name t : String} {structs : List (String × List (String × PStruct))}
    {s : PStruct} (h : matchesOf name structs = [(t, s)]) :
    scanForName name structs none = Except.ok (some s) := by
  induction structs with
  | nil => simp [matchesOf] at h
  | cons tm rest ih =>
    obtain ⟨tKey, m⟩ := tm
    rw [matchesOf] at h
    cases hk : keyFilter name m with
    | nil =>
      rw [hk] at h
      simp only [List.map_nil, List.nil_append] at h
      rw [scanForName, scanInner_no_match hk]
      exact ih h
    | cons x xs =>
      rw [hk] at h
      obtain ⟨n1, s1⟩ := x
      simp only [List.map_cons, List.cons_append] at h
      obtain ⟨hhead, htail⟩ := List.cons.inj h
      obtain ⟨-, hs1⟩ := Prod.mk.injEq tKey s1 t s ▸ hhead
      obtain ⟨hxs, hrest⟩ := List.append_eq_nil.mp htail
      have hxs2 : xs = [] := List.map_eq_nil.mp hxs
      rw [scanForName,
        scanInner_unique n1 (by rw [hk, hxs2, hs1])]
      exact scanFor_no_match hrest (some s)

theorem scanFor_ambig {name : String} {structs : List (String × List (String × PStruct))}
    {t1 t2 : String} {s1 s2 : PStruct} {restM : List (String × PStruct)}
    (hnd : ∀ tm ∈ structs, ((tm.2.map Prod.fst).Nodup))
    (h : matchesOf name structs = (t1, s1) :: (t2, s2) :: restM) :
    scanForName name structs none = Except.error (s1.type, t2) := by
  induction structs with
  | nil => simp [matchesOf] at h
  | cons tm rest ih =>
    obtain ⟨tKey, m⟩ := tm
    have hndm : (m.map Prod.fst).Nodup := (hnd (tKey, m) (List.mem_cons_self _ _))
    have hndr : ∀ tm ∈ rest, ((tm.2.map Prod.fst).Nodup) :=
      fun tm hm => hnd tm (List.mem_cons_of_mem _ hm)
    rw [matchesOf] at h
    rcases nodup_keyFilter name hndm with hk | ⟨sf, hk⟩
    · rw [hk] at h
      simp only [List.map_nil, List.nil_append] at h
      rw [scanForName, scanInner_no_match hk]
      exact ih hndr h
    · rw [hk] at h
      simp only [List.map_cons, List.map_nil, List.cons_append, List.nil_append] at h
      obtain ⟨hhead, htail⟩ := List.cons.inj h
      obtain ⟨-, hsf⟩ := Prod.mk.injEq tKey sf t1 s1 ▸ hhead
      rw [scanForName, scanInner_unique name hk, hsf]
      exact scanFor_second s1 htail

theorem matchesOf_mem {name t : String} {structs : List (String × List (String × PStruct))}
    {s : PStruct} (h : (t, s) ∈ matchesOf name structs) :
    ∃ m, (t, m) ∈ structs ∧ (name, s) ∈ m := by
  induction structs with
  | nil => simp [matchesOf] at h
  | cons tm rest ih =>
    obtain ⟨tKey, m⟩ := tm
    rw [matchesOf] at h
    rcases List.mem_append.mp h with h1 | h2
    · obtain ⟨p, hp, heq⟩ := List.mem_map.mp h1
      have hp2 : p ∈ m.filter (fun q => decide (q.1 = name)) := hp
      have hpm : p ∈ m := List.mem_of_mem_filter hp2
      have hpn : p.1 = name := by simpa using List.of_mem_filter hp2
      obtain ⟨ht, hs⟩ := Prod.mk.injEq tKey p.2 t s ▸ heq
      refine ⟨m, ht ▸ List.mem_cons_self _ _, ?_⟩
      have hps : p = (name, s) := by
        obtain ⟨p1, p2⟩ := p
        simp only at hpn hs
        rw [hpn, hs]
      exact hps ▸ hpm
    · obtain ⟨m2, hm2, hmem⟩ := ih h2
      exact ⟨m2, List.mem_cons_of_mem _ hm2, hmem⟩

theorem matchesOf_coherent {st : RState} (hwf : RegWF st) {name t : String} {s : PStruct}
    (h : (t, s) ∈ matchesOf name st.structures) : s.type = t ∧ s.name = name := by
  obtain ⟨m, hm, hmem⟩ := matchesOf_mem h
  obtain ⟨-, hps⟩ := hwf.2 (t, m) hm
  exact hps (name, s) hmem

theorem matchesOf_adjacent_ne {name : String} :
    ∀ {structs : List (String × List (String × PStruct))} {t1 t2 : String}
      {s1 s2 : PStruct} {restM : List (String × PStruct)},
    (structs.map Prod.fst).Nodup →
    (∀ tm ∈ structs, (tm.2.map Prod.fst).Nodup) →
    matchesOf name structs = (t1, s1) :: (t2, s2) :: restM → t1 ≠ t2 := by
  intro structs
  induction structs with
  | nil => intro t1 t2 s1 s2 restM _ _ h; simp [matchesOf] at h
  | cons tm rest ih =>
    intro t1 t2 s1 s2 restM hnd1 hnd2 h
    obtain ⟨tKey, m⟩ := tm
    simp only [List.map_cons, List.nodup_cons] at hnd1
    have hndm : (m.map Prod.fst).Nodup := hnd2 (tKey, m) (List.mem_cons_self _ _)
    have hndr : ∀ tm ∈ rest, ((tm.2.map Prod.fst).Nodup) :=
      fun tm hm => hnd2 tm (List.mem_cons_of_mem _ hm)
    rw [matchesOf] at h
    rcases nodup_keyFilter name hndm with hk | ⟨sf, hk⟩
    · rw [hk] at h
      simp only [List.map_nil, List.nil_append] at h
      exact ih hnd1.2 hndr h
    · rw [hk] at h
      simp only [List.map_cons, List.map_nil, List.cons_append, List.nil_append] at h
      obtain ⟨hhead, htail⟩ := List.cons.inj h
      obtain ⟨ht1, -⟩ := Prod.mk.injEq tKey sf t1 s1 ▸ hhead
      have hmem : (t2, s2) ∈ matchesOf name rest := by
        rw [htail]; exact List.mem_cons_self _ _
      obtain ⟨m2, hm2, -⟩ := matchesOf_mem hmem
      intro hcontra
      apply hnd1.1
      rw [ht1, hcontra]
      exact List.mem_map_of_mem Prod.fst hm2

/-
Behaviour of the type-inferred remove, by number of matches.
-/

theorem RState_eta (st : RState) :
    ({ structures := st.structures, pick := st.pick } : RState) = st := rfl

theorem removeByName_not_found {name : String} {st : RState}
    (h : matchesOf name st.structures = []) :
    removeStructureByName name st =
      (st, [Ev.errorEv ("No structure named: " ++ name ++ " to remove.")]) := by
  rw [removeStructureByName, scanFor_no_match h]

theorem removeByName_unique {name t : String} {s : PStruct} {st : RState} (hwf : RegWF st)
    (h : matchesOf name st.structures = [(t, s)]) :
    removeStructureByName name st =
      ({ structures := mapInsert t (mapErase name ((mapFind t st.structures).getD []))
           st.structures,
         pick := clearPickIfStructureSelected s st.pick },
       [Ev.deleted s.id, Ev.extentsRecomputed, Ev.redrawRequested]) := by
  have hmem : (t, s) ∈ matchesOf name st.structures := by
    rw [h]; exact List.mem_cons_self _ _
  obtain ⟨m, hm, hmm⟩ := matchesOf_mem hmem
  have hfind1 : mapFind t st.structures = some m := mapFind_eq_some_of_mem hwf.1 hm
  have hndm : (m.map Prod.fst).Nodup := (hwf.2 (t, m) hm).1
  have hfind2 : mapFind name m = some s := mapFind_eq_some_of_mem hndm hmm
  have hst : s.type = t := ((hwf.2 (t, m) hm).2 (name, s) hmm).1
  have hsn : s.name = name := ((hwf.2 (t, m) hm).2 (name, s) hmm).2
  simp only [removeStructureByName, scanFor_unique h, hst, hsn, removeStructure,
    hfind1, hfind2, Option.getD_some, List.cons_append, List.nil_append]

theorem removeByName_ambig {name t1 t2 : String} {s1 s2 : PStruct}
    {restM : List (String × PStruct)} {st : RState} (hwf : RegWF st)
    (h : matchesOf name st.structures = (t1, s1) :: (t2, s2) :: restM) :
    removeStructureByName name st = (st, [Ev.errorEv (ambiguityMsg t1 t2)]) := by
  have hndi : ∀ tm ∈ st.structures, ((tm.2.map Prod.fst).Nodup) :=
    fun tm hm => (hwf.2 tm hm).1
  have hs1 : s1.type = t1 := by
    have hmem : (t1, s1) ∈ matchesOf name st.structures := by
      rw [h]; exact List.mem_cons_self _ _
    exact (matchesOf_coherent hwf hmem).1
  rw [removeStructureByName, scanFor_ambig hndi h, hs1]

/-- Failure of `registerStructure` on a taken name with
`replaceIfPresent = false`. -/
theorem registerStructure_dup_lemma (st : RState) (s : PStruct)
    {sMap : List (String × PStruct)} {sOld : PStruct}
    (h1 : mapFind s.type st.structures = some sMap)
    (h2 : mapFind s.name sMap = some sOld) :
    registerStructure s false st = (false, st, [Ev.errorEv (dupNameMsg s.name)]) := by
  simp only [registerStructure, h1, Option.isNone_some, Bool.false_eq_true, if_false,
    Option.getD_some, h2, Option.isSome_some, if_true, RState_eta]

/-
Claim theorems.
-/

/-- C1 (code bug evidence): on a context stack holding only the root
entry, `popContext()` reports the error but still executes `pop_back`
(there is no early return after `error(...)` in the source), so the stack
is left EMPTY, violating the documented invariant that the stack always
holds at least one entry; the call is not a no-op. -/
theorem popContext_root_entry_pops :
    popContext [(none : Option (List Cmd))] = ([], true) ∧
    (popContext [(none : Option (List Cmd))]).1.length = 0 :=
  ⟨rfl, rfl⟩

/-- C3: registering a structure whose (type, name) is already present
with `replaceIfPresent = false` fails: it returns false, reports an
error, leaves the whole state unchanged, and the registry still holds
exactly the original instance under that (type, name). -/
theorem registerStructure_duplicate_fails (st : RState) (s : PStruct)
    {sMap : List (String × PStruct)} {sOld : PStruct}
    (h1 : mapFind s.type st.structures = some sMap)
    (h2 : mapFind s.name sMap = some sOld) :
    registerStructure s false st = (false, st, [Ev.errorEv (dupNameMsg s.name)]) ∧
    mapFind s.name ((mapFind s.type st.structures).getD []) = some sOld := by
  refine ⟨registerStructure_dup_lemma st s h1 h2, ?_⟩
  rw [h1]
  exact h2

theorem registerStructure_duplicate_fails_witness :
    registerStructure ⟨2, "A", "x"⟩ false exampleSingle =
      (false, exampleSingle, [Ev.errorEv (dupNameMsg "x")]) ∧
    mapFind "x" ((mapFind "A" exampleSingle.structures).getD []) =
      some ⟨1, "A", "x"⟩ :=
  registerStructure_duplicate_fails exampleSingle ⟨2, "A", "x"⟩ rfl rfl

/-- C4: the type-inferred `removeStructure(name)` removes a structure
exactly when exactly one structure with that name exists across all
types; with two or more matches it reports the ambiguity error naming the
two distinct matching types and changes nothing (in particular the
extents are not recomputed); with no match it reports not-found and
changes nothing. -/
theorem removeStructureByName_cases (st : RState) (name : String) (hwf : RegWF st) :
    (matchesOf name st.structures = [] →
      removeStructureByName name st =
        (st, [Ev.errorEv ("No structure named: " ++ name ++ " to remove.")])) ∧
    (∀ t1 s1 t2 s2 restM,
      matchesOf name st.structures = (t1, s1) :: (t2, s2) :: restM →
      t1 ≠ t2 ∧
      removeStructureByName name st = (st, [Ev.errorEv (ambiguityMsg t1 t2)])) ∧
    (∀ t s, matchesOf name st.structures = [(t, s)] →
      removeStructureByName name st =
        ({ structures := mapInsert t (mapErase name ((mapFind t st.structures).getD []))
             st.structures,
           pick := clearPickIfStructureSelected s st.pick },
         [Ev.deleted s.id, Ev.extentsRecomputed, Ev.redrawRequested])) := by
  refine ⟨fun h => removeByName_not_found h, ?_, fun t s h => removeByName_unique hwf h⟩
  intro t1 s1 t2 s2 restM h
  exact ⟨matchesOf_adjacent_ne hwf.1 (fun tm hm => (hwf.2 tm hm).1) h,
    removeByName_ambig hwf h⟩

set_option maxRecDepth 40000 in
theorem removeStructureByName_cases_witness :
    "A" ≠ "B" ∧
    removeStructureByName "foo" exampleDupName =
      (exampleDupName, [Ev.errorEv (ambiguityMsg "A" "B")]) :=
  (removeStructureByName_cases exampleDupName "foo" (by decide)).2.1
    "A" ⟨1, "A", "foo"⟩ "B" ⟨2, "B", "foo"⟩ [] (by decide)

set_option maxRecDepth 40000 in
/-- C2 counterexample: on a registry where type "A" and type "B" both
hold a structure named "foo", registering a new "A"/"foo" structure with
`replaceIfPresent = true` does NOT remove the old entry: the
type-inferred remove it delegates to fails with the ambiguity error, the
old structure (id 1) is never deleted, and the pick selection that
references it is left in place even though the old entry has been
overwritten in the map, contradicting the claim that the replace path
first removes exactly the old (type, name) entry and transfers ownership
cleanly. -/
theorem registerStructure_replace_counterexample :
    (registerStructure ⟨3, "A", "foo"⟩ true exampleDupName).1 = true ∧
    Ev.deleted 1 ∉ (registerStructure ⟨3, "A", "foo"⟩ true exampleDupName).2.2 ∧
    Ev.errorEv (ambiguityMsg "A" "B") ∈
      (registerStructure ⟨3, "A", "foo"⟩ true exampleDupName).2.2 ∧
    (registerStructure ⟨3, "A", "foo"⟩ true exampleDupName).2.1.pick =
      PickState.selected 1 0 false ∧
    mapFind "foo"
        ((mapFind "A" (registerStructure ⟨3, "A", "foo"⟩ true exampleDupName).2.1.structures).getD [])
      = some ⟨3, "A", "foo"⟩ := by
  decide

/-- C2 (amended): with `replaceIfPresent = true` and the (type, name)
pair already present, registration always returns true, installs the new
structure and ends by recomputing extents and requesting a redraw; the
prior removal happens through the type-inferred `removeStructure(name)`,
so the old entry is removed (deleted, with the pick invalidated) only
when the name is unique across all types; if a structure of another type
shares the name, an ambiguity error is reported instead, the old
structure is not deleted and the pick selection is not cleared, and the
map entry is simply overwritten. -/
theorem registerStructure_replace_amended (st : RState) (s : PStruct)
    {sMap : List (String × PStruct)} {sOld : PStruct} (hwf : RegWF st)
    (h1 : mapFind s.type st.structures = some sMap)
    (h2 : mapFind s.name sMap = some sOld) :
    (registerStructure s true st).1 = true ∧
    (matchesOf s.name st.structures = [(s.type, sOld)] →
      registerStructure s true st =
        (true,
         { structures := mapInsert s.type (mapInsert s.name s (mapErase s.name sMap))
             st.structures,
           pick := clearPickIfStructureSelected sOld st.pick },
         [Ev.deleted sOld.id, Ev.extentsRecomputed, Ev.redrawRequested,
          Ev.extentsRecomputed, Ev.redrawRequested])) ∧
    (∀ t1 s1 t2 s2 restM,
      matchesOf s.name st.structures = (t1, s1) :: (t2, s2) :: restM →
      registerStructure s true st =
        (true,
         { structures := mapInsert s.type (mapInsert s.name s sMap) st.structures,
           pick := st.pick },
         [Ev.errorEv (ambiguityMsg t1 t2), Ev.extentsRecomputed, Ev.redrawRequested])) := by
  refine ⟨?_, ?_, ?_⟩
  · simp only [registerStructure, h1, Option.isNone_some, Bool.false_eq_true, if_false,
      Option.getD_some, h2, Option.isSome_some, if_true, RState_eta]
  · intro hmatch
    simp only [registerStructure, h1, Option.isNone_some, Bool.false_eq_true, if_false,
      Option.getD_some, h2, Option.isSome_some, if_true, RState_eta]
    rw [removeByName_unique hwf hmatch, h1]
    simp only [Option.getD_some, mapFind_mapInsert_self, mapInsert_mapInsert_self]
    rfl
  · intro t1 s1 t2 s2 restM hmatch
    simp only [registerStructure, h1, Option.isNone_some, Bool.false_eq_true, if_false,
      Option.getD_some, h2, Option.isSome_some, if_true, RState_eta]
    rw [removeByName_ambig hwf hmatch, h1]
    rfl

set_option maxRecDepth 40000 in
theorem registerStructure_replace_amended_witness :
    (registerStructure ⟨3, "A", "foo"⟩ true exampleDupName).1 = true ∧
    registerStructure ⟨3, "A", "foo"⟩ true exampleDupName =
      (true,
       { structures := mapInsert "A" (mapInsert "foo" ⟨3, "A", "foo"⟩ [("foo", ⟨1, "A", "foo"⟩)])
           exampleDupName.structures,
         pick := exampleDupName.pick },
       [Ev.errorEv (ambiguityMsg "A" "B"), Ev.extentsRecomputed, Ev.redrawRequested]) :=
  ⟨(registerStructure_replace_amended exampleDupName ⟨3, "A", "foo"⟩ (by decide) rfl rfl).1,
   (registerStructure_replace_amended exampleDupName ⟨3, "A", "foo"⟩ (by decide) rfl rfl).2.2
     "A" ⟨1, "A", "foo"⟩ "B" ⟨2, "B", "foo"⟩ [] (by decide)⟩

/-- C8: removing a structure through `removeStructure(type, name, ...)`
invalidates a pick selection referencing it (the resulting pick never
references the removed structure), and `removeAllStructures` always
leaves the pick at no-selection. -/
theorem removeStructure_clears_pick :
    (∀ (st : RState) (type name : String) (eia : Bool)
       (sMap : List (String × PStruct)) (s : PStruct) (li : Nat) (db : Bool),
      mapFind type st.structures = some sMap →
      mapFind name sMap = some s →
      ((st.pick = PickState.selected s.id li db →
         (removeStructure type name eia st).1.pick = PickState.noSelection) ∧
       (removeStructure type name eia st).1.pick ≠ PickState.selected s.id li db)) ∧
    (∀ st : RState, (removeAllStructures st).1.pick = PickState.noSelection) := by
  constructor
  · intro st type name eia sMap s li db h1 h2
    simp only [removeStructure, h1, h2]
    constructor
    · intro hp
      rw [hp]
      simp [clearPickIfStructureSelected]
    · cases hcase : st.pick with
      | noSelection => simp [clearPickIfStructureSelected]
      | selected i l d =>
        by_cases hid : i = s.id
        · simp [clearPickIfStructureSelected, hid]
        · simp only [clearPickIfStructureSelected, if_neg hid]
          intro hcon
          exact hid (PickState.selected.injEq i l d s.id li db ▸ hcon).1
  · intro st
    rfl

theorem removeStructure_clears_pick_witness :
    (removeStructure "A" "x" true exampleSingle).1.pick = PickState.noSelection ∧
    (removeAllStructures exampleSingle).1.pick = PickState.noSelection :=
  ⟨(removeStructure_clears_pick.1 exampleSingle "A" "x" true
      [("x", ⟨1, "A", "x"⟩)] ⟨1, "A", "x"⟩ 0 false rfl rfl).1 rfl,
   removeStructure_clears_pick.2 exampleSingle⟩

/-- C9: `requestRedraw` sets the flag and `redrawRequested` reads it; the
scene is re-rasterized on an iteration exactly when the flag or the
`alwaysRedraw` override is set; the flag is cleared right after a redraw
is performed; and an iteration with the flag clear and the override
disabled performs no rasterization and leaves the state untouched. -/
theorem drawSceneStep_redraw_spec :
    ∀ (ar : Bool) (fs : FrameState),
      ((drawSceneStep ar fs).1 = true ↔ (redrawRequested fs = true ∨ ar = true)) ∧
      ((drawSceneStep ar fs).1 = true → (drawSceneStep ar fs).2.redrawNextFrame = false) ∧
      (redrawRequested fs = false → ar = false → drawSceneStep ar fs = (false, fs)) ∧
      redrawRequested (requestRedraw fs) = true := by
  intro ar fs
  obtain ⟨b⟩ := fs
  cases b <;> cases ar <;> simp [drawSceneStep, redrawRequested, requestRedraw]

theorem drawSceneStep_redraw_spec_witness :
    (drawSceneStep false { redrawNextFrame := true }).2.redrawNextFrame = false ∧
    drawSceneStep false { redrawNextFrame := false } =
      (false, { redrawNextFrame := false }) :=
  ⟨(drawSceneStep_redraw_spec false { redrawNextFrame := true }).2.1 rfl,
   (drawSceneStep_redraw_spec false { redrawNextFrame := false }).2.2.1 rfl rfl⟩

/-- C7: a pick query outside the buffer bounds is a no-op on the pick
state; inside the bounds, a decoded index of 0 always yields
no-selection, and any nonzero index yields the selection resolved through
the index table, carrying the latched double-click flag. -/
theorem evaluatePickQuery_spec :
    ∀ (env : PickEnv) (lcd : Bool) (x y : Int) (cur : PickState),
      ((x < 0 ∨ env.bufferWidth ≤ x ∨ y < 0 ∨ env.bufferHeight ≤ y) →
        evaluatePickQuery env lcd x y cur = cur) ∧
      (0 ≤ x → x < env.bufferWidth → 0 ≤ y → y < env.bufferHeight →
        ((env.readInd x (env.bufferHeight - y) = 0 →
           evaluatePickQuery env lcd x y cur = PickState.noSelection) ∧
         (∀ k : Nat, env.readInd x (env.bufferHeight - y) = k → k ≠ 0 →
           evaluatePickQuery env lcd x y cur =
             PickState.selected (env.pickTable k).1 (env.pickTable k).2 lcd))) := by
  intro env lcd x y cur
  constructor
  · intro hout
    rw [evaluatePickQuery, if_pos hout]
  · intro hx1 hx2 hy1 hy2
    have hin : ¬ (x < 0 ∨ env.bufferWidth ≤ x ∨ y < 0 ∨ env.bufferHeight ≤ y) := by
      push_neg
      exact ⟨hx1, hx2, hy1, hy2⟩
    constructor
    · intro h0
      rw [evaluatePickQuery, if_neg hin]
      simp only [h0, if_true]
      rfl
    · intro k hk hk0
      rw [evaluatePickQuery, if_neg hin]
      simp only [hk, if_neg hk0]

theorem evaluatePickQuery_spec_witness :
    evaluatePickQuery
        { bufferWidth := 10, bufferHeight := 10, readInd := fun _ _ => 0,
          pickTable := fun k => (k, 0) } false 5 5 (PickState.selected 7 7 true) =
      PickState.noSelection :=
  ((evaluatePickQuery_spec
      { bufferWidth := 10, bufferHeight := 10, readInd := fun _ _ => 0,
        pickTable := fun k => (k, 0) } false 5 5 (PickState.selected 7 7 true)).2
    (by decide) (by decide) (by decide) (by decide)).1 rfl

/-- Whenever the spin loop of `pushContext` returns at all, the stack it
returns has shrunk strictly below the loop's size threshold. -/
theorem pushLoop_le :
    ∀ (f target : Nat) (st : Stack) (n : Nat) (st2 : Stack) (m : Nat),
      pushLoop f target st n = some (st2, m) → st2.length < target := by
  intro f
  induction f with
  | zero => intro target st n st2 m h; simp [pushLoop] at h
  | succ f ih =>
    intro target st n st2 m h
    rw [pushLoop] at h
    by_cases hc : target ≤ st.length
    · rw [if_pos hc] at h
      split at h
      · exact absurd h (by simp)
      · rename_i st3 hml
        exact ih target st3 (n + 1) st2 m h
    · rw [if_neg hc] at h
      have hst : st = st2 := (Prod.ext_iff.mp (Option.some.inj h)).1
      exact hst ▸ Nat.lt_of_not_le hc

/-- C6: for a callback that immediately calls `popContext()`,
`pushContext` returns after exactly one internal loop iteration with the
stack exactly as it was before the call (so sizes agree); and in general
`pushContext` returns only once the stack has unwound to at most its
pre-push size, i.e. strictly below its own push depth, which is what
makes nested pushes close in LIFO order. -/
theorem pushContext_loop_spec :
    (∀ (f : Nat) (st : Stack), st ≠ [] →
      pushContext (f + 1 + 1 + 1 + 1 + 1) [Cmd.pop] st = some (st, 1)) ∧
    (∀ (f : Nat) (cbs : List Cmd) (st st2 : Stack) (n : Nat),
      pushContext f cbs st = some (st2, n) → st2.length ≤ st.length) := by
  constructor
  · intro f st hst
    obtain ⟨b, rest, rfl⟩ : ∃ b rest, st = b :: rest := by
      cases st with
      | nil => exact absurd rfl hst
      | cons b rest => exact ⟨b, rest, rfl⟩
    simp only [pushContext, pushLoop, mainLoopIteration, runCmds, popContext,
      List.length_cons, List.tail_cons, le_refl, if_true, Nat.not_succ_le_self, if_false,
      Nat.zero_add]
  · intro f cbs st st2 n h
    cases f with
    | zero => simp [pushContext] at h
    | succ f =>
      rw [pushContext] at h
      have := pushLoop_le f (st.length + 1) (some cbs :: st) 0 st2 n h
      omega

theorem pushContext_loop_spec_witness :
    (([none] : Stack) ≠ []) ∧
    pushContext 5 [Cmd.pop] [none] = some ([none], 1) :=
  ⟨List.cons_ne_nil none [], pushContext_loop_spec.1 0 [none] (List.cons_ne_nil none [])⟩

/-- Square root of twelve, the diagonal length of the unit fallback box. -/
theorem sqrt_twelve : Real.sqrt 12 = 2 * Real.sqrt 3 := by
  rw [show (12 : ℝ) = 2 ^ 2 * 3 by norm_num, Real.sqrt_mul (by positivity),
    Real.sqrt_sq (by norm_num)]

/-- C5: `updateStructureExtents` falls back to the unit box when the
folded bounding box is non-finite and keeps the folded box otherwise;
a folded length scale of exactly zero is replaced by the Euclidean
diagonal of the final (possibly fallback) box, a nonzero one is kept;
the center is always the midpoint of the final box; and on an empty
registry the result is length scale 2*sqrt(3), box [-1,-1,-1]..[1,1,1],
center the origin. -/
theorem updateStructureExtents_spec :
    (∀ ss : List SExtent,
      (¬ isFiniteV (foldMinBbox ss) ∨ ¬ isFiniteV (foldMaxBbox ss)) →
      (updateStructureExtents ss).bboxMin = (-1, -1, -1) ∧
      (updateStructureExtents ss).bboxMax = (1, 1, 1)) ∧
    (∀ ss : List SExtent,
      isFiniteV (foldMinBbox ss) → isFiniteV (foldMaxBbox ss) →
      (updateStructureExtents ss).bboxMin = toRealV (foldMinBbox ss) ∧
      (updateStructureExtents ss).bboxMax = toRealV (foldMaxBbox ss)) ∧
    (∀ ss : List SExtent, foldLengthScale ss = 0 →
      (updateStructureExtents ss).lengthScale =
        vlength
          ((updateStructureExtents ss).bboxMax.1 - (updateStructureExtents ss).bboxMin.1,
           (updateStructureExtents ss).bboxMax.2.1 - (updateStructureExtents ss).bboxMin.2.1,
           (updateStructureExtents ss).bboxMax.2.2 - (updateStructureExtents ss).bboxMin.2.2)) ∧
    (∀ ss : List SExtent, foldLengthScale ss ≠ 0 →
      (updateStructureExtents ss).lengthScale = foldLengthScale ss) ∧
    (∀ ss : List SExtent,
      (updateStructureExtents ss).center =
        (((updateStructureExtents ss).bboxMin.1 + (updateStructureExtents ss).bboxMax.1) / 2,
         ((updateStructureExtents ss).bboxMin.2.1 + (updateStructureExtents ss).bboxMax.2.1) / 2,
         ((updateStructureExtents ss).bboxMin.2.2 + (updateStructureExtents ss).bboxMax.2.2) / 2)) ∧
    ((updateStructureExtents []).lengthScale = 2 * Real.sqrt 3 ∧
     (updateStructureExtents []).bboxMin = (-1, -1, -1) ∧
     (updateStructureExtents []).bboxMax = (1, 1, 1) ∧
     (updateStructureExtents []).center = (0, 0, 0)) := by
  have hEmptyCond :
      ¬ isFiniteV (foldMinBbox []) ∨ ¬ isFiniteV (foldMaxBbox []) :=
    Or.inl (fun h => h.1.1 rfl)
  refine ⟨?_, ?_, ?_, ?_, ?_, ?_⟩
  · intro ss h
    simp only [updateStructureExtents]
    rw [if_pos h, if_pos h]
    exact ⟨rfl, rfl⟩
  · intro ss h1 h2
    have hnc : ¬ (¬ isFiniteV (foldMinBbox ss) ∨ ¬ isFiniteV (foldMaxBbox ss)) := by
      push_neg
      exact ⟨h1, h2⟩
    simp only [updateStructureExtents]
    rw [if_neg hnc, if_neg hnc]
    exact ⟨rfl, rfl⟩
  · intro ss h0
    simp only [updateStructureExtents]
    rw [if_pos h0]
  · intro ss h0
    simp only [updateStructureExtents]
    rw [if_neg h0]
  · intro ss
    simp only [updateStructureExtents]
  · simp only [updateStructureExtents]
    rw [if_pos hEmptyCond, if_pos hEmptyCond]
    have hz : foldLengthScale [] = 0 := rfl
    rw [if_pos hz]
    refine ⟨?_, rfl, rfl, by norm_num⟩
    show vlength (1 - (-1), 1 - (-1), 1 - (-1)) = 2 * Real.sqrt 3
    rw [vlength]
    rw [show ((1 : ℝ) - (-1)) ^ 2 + (1 - (-1)) ^ 2 + (1 - (-1)) ^ 2 = 12 by norm_num]
    exact sqrt_twelve

theorem updateStructureExtents_spec_witness :
    (updateStructureExtents []).bboxMin = (-1, -1, -1) ∧
    (updateStructureExtents []).lengthScale =
      vlength
        ((updateStructureExtents []).bboxMax.1 - (updateStructureExtents []).bboxMin.1,
         (updateStructureExtents []).bboxMax.2.1 - (updateStructureExtents []).bboxMin.2.1,
         (updateStructureExtents []).bboxMax.2.2 - (updateStructureExtents []).bboxMin.2.2) :=
  ⟨(updateStructureExtents_spec.1 [] (Or.inl (fun h => h.1.1 rfl))).1,
   updateStructureExtents_spec.2.2.1 [] rfl⟩

/-- C10: the typed registration wrappers never read their
`replaceIfPresent` parameter (they call `registerStructure(s)` with the
header's default), so registration always behaves as with
`replaceIfPresent = false`: in particular, when the (type, name) pair is
already taken the call fails with the duplicate-name error and deletes
the freshly constructed structure, even when `replaceIfPresent = true`
was passed. -/
theorem typedWrappers_ignore_replaceIfPresent :
    (∀ (sid : Nat) (name : String) (rip : Bool) (st : RState),
      registerPointCloud sid name rip st = registerPointCloud sid name false st ∧
      registerSurfaceMesh sid name rip st = registerSurfaceMesh sid name false st ∧
      registerCameraView sid name rip st = registerCameraView sid name false st ∧
      registerRaySet sid name rip st = registerRaySet sid name false st) ∧
    (∀ (sid : Nat) (name : String) (st : RState)
       (sMap : List (String × PStruct)) (sOld : PStruct),
      mapFind pointCloudTypeName st.structures = some sMap →
      mapFind name sMap = some sOld →
      registerPointCloud sid name true st =
        (st, [Ev.errorEv (dupNameMsg name), Ev.deleted sid])) := by
  constructor
  · intro sid name rip st
    exact ⟨rfl, rfl, rfl, rfl⟩
  · intro sid name st sMap sOld h1 h2
    simp only [registerPointCloud,
      registerStructure_dup_lemma st ⟨sid, pointCloudTypeName, name⟩ h1 h2,
      Bool.false_eq_true, if_false, List.cons_append, List.nil_append]

theorem typedWrappers_ignore_replaceIfPresent_witness :
    registerPointCloud 7 "x" true
        { structures := [(pointCloudTypeName, [("x", ⟨1, pointCloudTypeName, "x"⟩)])],
          pick := PickState.noSelection } =
      ({ structures := [(pointCloudTypeName, [("x", ⟨1, pointCloudTypeName, "x"⟩)])],
         pick := PickState.noSelection },
       [Ev.errorEv (dupNameMsg "x"), Ev.deleted 7]) := by
  exact typedWrappers_ignore_replaceIfPresent.2 7 "x"
    { structures := [(pointCloudTypeName, [("x", ⟨1, pointCloudTypeName, "x"⟩)])],
      pick := PickState.noSelection }
    [("x", ⟨1, pointCloudTypeName, "x"⟩)] ⟨1, pointCloudTypeName, "x"⟩ rfl rfl
